import Mathlib

/-
Verification of the template-catalog maintenance scripts
(update-catalog.py and validate-catalog.py).

The Python scripts are shallowly embedded: parsed YAML documents become the
inductive type YVal (association lists model Python dicts, preserving key
order exactly as the PyYAML loader and Python 3.7+ dicts do); fallible
operations (yaml.safe_load, attribute access on non-dicts) become Except
values; the git subprocess calls become an abstract Git record supplying the
answers the scripts inspect (parent existence, diff output lines, per-path
diff results); file writes become an explicit list of write events.
-/

set_option autoImplicit false

/-- A parsed YAML document / Python value, as produced by yaml.safe_load.
Mappings are association lists in document key order (PyYAML preserves
order; Python dicts preserve insertion order). Scalars beyond these
(floats, dates) do not occur in any property below. -/
inductive YVal where
  | null
  | bool (b : Bool)
  | int (n : Int)
  | str (s : String)
  | list (xs : List YVal)
  | map (kvs : List (String × YVal))

/-- Python exceptions relevant to the scripts. -/
inductive PyErr where
  | parseError
  | attributeError
  | fileNotFound
deriving Repr, DecidableEq

/-- Python dict lookup on an association list (first matching key). -/
def alistGet {α : Type} : List (String × α) → String → Option α
  | [], _ => none
  | (k2, v) :: rest, k => if k2 = k then some v else alistGet rest k

/-- Python dict item assignment: replaces the value in place (key keeps its
position) when the key is present, appends a new last entry otherwise. -/
def alistSet {α : Type} : List (String × α) → String → α → List (String × α)
  | [], k, v => [(k, v)]
  | (k2, v2) :: rest, k, v =>
    if k2 = k then (k, v) :: rest else (k2, v2) :: alistSet rest k v

/-- ASCII whitespace as stripped from version strings by str.strip(). -/
def isSpaceChar (c : Char) : Bool := c = ' ' || c = '\t' || c = '\n' || c = '\r'

/-- Drops the leading whitespace of a character list. -/
def dropLeadingSpace : List Char → List Char
  | [] => []
  | c :: cs => if isSpaceChar c then dropLeadingSpace cs else c :: cs

/-- Python str.strip() with no arguments, restricted to the ASCII whitespace
that occurs around version strings. -/
def pyStrip (s : String) : String :=
  ⟨((dropLeadingSpace ((dropLeadingSpace s.toList).reverse)).reverse)⟩

/-- Splits a character list on the dot separator; mirrors str.split on a
single-character separator (an empty input gives one empty component, a
separator at either end gives an empty component there). -/
def splitDots : List Char → List (List Char)
  | [] => [[]]
  | c :: cs =>
    if c = '.' then [] :: splitDots cs
    else
      match splitDots cs with
      | [] => [[c]]
      | h :: t => (c :: h) :: t

/-- The dot-separated components of a string. -/
def dotComponents (s : String) : List String :=
  (splitDots s.toList).map (fun l => ⟨l⟩)

/-- One or more ASCII decimal digits: the regex fragment (\d+). -/
def isDigitStr (s : String) : Bool := !s.isEmpty && s.toList.all Char.isDigit

/-- Python int() on a string of decimal digits. -/
def strToNat (s : String) : Nat := s.toList.foldl (fun n c => n * 10 + (c.toNat - 48)) 0

/-- bump_patch_version from update-catalog.py: match the stripped input
against the anchored pattern (\d+).(\d+).(\d+); on a match rebuild the
string from the three int() values with the patch component incremented,
otherwise return the input unchanged. -/
def bump_patch_version (version : String) : String :=
  match dotComponents (pyStrip version) with
  | [a, b, c] =>
    if isDigitStr a && isDigitStr b && isDigitStr c then
      toString (strToNat a) ++ "." ++ toString (strToNat b) ++ "." ++ toString (strToNat c + 1)
    else version
  | _ => version

/-- The semver view used by the statements below: the three numeric
components of a string in strict M.N.P form, none otherwise. -/
def semverParse (s : String) : Option (Nat × Nat × Nat) :=
  match dotComponents s with
  | [a, b, c] =>
    if isDigitStr a && isDigitStr b && isDigitStr c then
      some (strToNat a, strToNat b, strToNat c)
    else none
  | _ => none

/-- Spec-side reading of the Version Bump Engine contract, taken from the
words of the specification alone: an input in strict three-dot-separated
non-negative-integer form M.N.P yields some "M.N.(P+1)" (components read as
decimal numbers); every other input yields none. Used to compare the
specified contract against bump_patch_version. -/
def specBumpResult (s : String) : Option String :=
  match dotComponents s with
  | [a, b, c] =>
    if isDigitStr a && isDigitStr b && isDigitStr c then
      some (toString (strToNat a) ++ "." ++ toString (strToNat b) ++ "." ++ toString (strToNat c + 1))
    else none
  | _ => none

mutual
/-- A deterministic textual rendering of a document, standing in for
yaml.dump. Every property below relies only on this being a fixed function
of the document, mirroring the determinism of yaml.dump with fixed options;
no property depends on the exact byte format. -/
def renderY : YVal → String
  | .null => "null"
  | .bool true => "true"
  | .bool false => "false"
  | .int n => toString n
  | .str s => "\"" ++ s ++ "\""
  | .list xs => "[" ++ renderYList xs ++ "]"
  | .map kvs => "\x7b" ++ renderYMap kvs ++ "\x7d"

/-- Renders the elements of a sequence, comma separated. -/
def renderYList : List YVal → String
  | [] => ""
  | [v] => renderY v
  | v :: vs => renderY v ++ ", " ++ renderYList vs

/-- Renders the entries of a mapping in key order, comma separated. -/
def renderYMap : List (String × YVal) → String
  | [] => ""
  | [(k, v)] => k ++ ": " ++ renderY v
  | (k, v) :: kvs => k ++ ": " ++ renderY v ++ ", " ++ renderYMap kvs
end

/-- Python str() on a parsed value. Matches CPython exactly on the scalars
that can occur as a manifest version field; for sequences and mappings the
precise repr text is immaterial to every property below and the rendering
above is reused. -/
def pyStr : YVal → String
  | .null => "None"
  | .bool true => "True"
  | .bool false => "False"
  | .int n => toString n
  | .str s => s
  | v => renderY v

/-- Python .get(key, default) on a parsed value: succeeds on a mapping,
raises AttributeError on every other value (None, sequences, scalars have
no .get method). -/
def pyGetD (v : YVal) (k : String) (d : YVal) : Except PyErr YVal :=
  match v with
  | .map kvs => .ok ((alistGet kvs k).getD d)
  | _ => .error .attributeError

/-- Top-level field lookup of a document; none when the document is not a
mapping or lacks the key. Used to state where fields of a written manifest
live. -/
def topGet (d : YVal) (k : String) : Option YVal :=
  match d with
  | .map kvs => alistGet kvs k
  | _ => none

/-- bump_manifest_version from update-catalog.py, at the document level:
given the parsed manifest document, returns the document written back by
yaml.dump together with the version value read and the version string
written. Mirrors the Python aliasing exactly: manifest = data.get("manifest",
data) aliases either the nested mapping or the whole document, so the
assignment manifest["version"] = new_version lands inside the nested
mapping when one is present and at the top level otherwise, and
yaml.dump(data) writes the whole (mutated) document. A missing version key
defaults to "0.0.0"; the value read is passed through str() before
bump_patch_version. Raises AttributeError when .get is called on a
non-mapping. -/
def bump_manifest_version (data : YVal) : Except PyErr (YVal × YVal × String) :=
  match data with
  | .map kvs =>
    match alistGet kvs "manifest" with
    | some (.map inner) =>
      let oldV := (alistGet inner "version").getD (.str "0.0.0")
      let newV := bump_patch_version (pyStr oldV)
      .ok (.map (alistSet kvs "manifest" (.map (alistSet inner "version" (.str newV)))), oldV, newV)
    | some _ => .error .attributeError
    | none =>
      let oldV := (alistGet kvs "version").getD (.str "0.0.0")
      let newV := bump_patch_version (pyStr oldV)
      .ok (.map (alistSet kvs "version" (.str newV)), oldV, newV)
  | _ => .error .attributeError

/-- The summary record that build_info_yaml assembles for one template
directory: id defaults to the directory name, name / description / version
default to None, tags / keywords default to the empty sequence, in this
key order. -/
def projectManifest (dirName : String) (data : YVal) : Except PyErr YVal := do
  let m ← pyGetD data "manifest" data
  let idv ← pyGetD m "id" (.str dirName)
  let nv ← pyGetD m "name" .null
  let dv ← pyGetD m "description" .null
  let vv ← pyGetD m "version" .null
  let tv ← pyGetD m "tags" (.list [])
  let kv ← pyGetD m "keywords" (.list [])
  return .map [("id", idv), ("name", nv), ("description", dv),
               ("version", vv), ("tags", tv), ("keywords", kv)]

/-- Error-propagating map over a list, as Python exception flow through a
for loop: stops at the first raised exception. -/
def mapExcept {α β : Type} (f : α → Except PyErr β) : List α → Except PyErr (List β)
  | [] => .ok []
  | x :: xs =>
    match f x with
    | .error e => .error e
    | .ok y =>
      match mapExcept f xs with
      | .error e => .error e
      | .ok ys => .ok (y :: ys)

/-- The template directories of the repository, in iterdir order: each a
directory name paired with the result of yaml.safe_load on its
manifest.yaml (Except.error PyErr.parseError for a malformed file). -/
def Templates : Type := List (String × Except PyErr YVal)

/-- Loading and projecting the manifest of one template directory during
the catalog rebuild: a parse failure of yaml.safe_load propagates
uncaught. -/
def loadAndProject (nd : String × Except PyErr YVal) : Except PyErr YVal :=
  match nd.2 with
  | .error e => .error e
  | .ok data => projectManifest nd.1 data

/-- build_info_yaml from update-catalog.py: loads every manifest (a parse
failure propagates uncaught), projects each to its summary record, and
wraps the list under the single templates key. -/
def build_info_yaml (ts : Templates) : Except PyErr YVal :=
  match mapExcept loadAndProject ts with
  | .error e => .error e
  | .ok recs => .ok (.map [("templates", .list recs)])

/-- The info.yaml regeneration step of main in update-catalog.py: build the
index document, serialize it, compare byte-for-byte against the existing
on-disk content (the empty string when the file is absent), and report the
resulting on-disk content together with whether a write was performed. -/
def rebuild_index (ts : Templates) (existing : String) : Except PyErr (String × Bool) :=
  match build_info_yaml ts with
  | .error e => .error e
  | .ok info =>
    let newContent := renderY info
    if existing = newContent then .ok (existing, false) else .ok (newContent, true)

/-- The answers the version-control subprocesses give during one run:
whether HEAD~1 exists, the path lines printed by git diff --name-only
HEAD~1 HEAD, and for each path argument the result of git diff HEAD~1 HEAD
-- path (error for a nonzero exit code, otherwise the captured stdout). -/
structure Git where
  hasParent : Bool
  changedFiles : List String
  pathDiff : String → Except Unit String

/-- The head path segment before the first slash (f.split("/")[0]). -/
def headSeg (f : String) : String := ⟨f.toList.takeWhile (fun c => c != '/')⟩

/-- get_changed_template_dirs from update-catalog.py: on a first commit the
set of all template directory names; otherwise the set of first path
segments of changed files that lie inside a known template directory (the
path must contain a slash). Sets are modeled as deduplicated lists. -/
def get_changed_template_dirs (g : Git) (templateDirs : List String) : List String :=
  if g.hasParent then
    ((g.changedFiles.filter (fun f =>
        f.toList.contains '/' && templateDirs.contains (headSeg f))).map headSeg).dedup
  else templateDirs.dedup

/-- Whether one character list starts with another. -/
def listStartsWith : List Char → List Char → Bool
  | [], _ => true
  | _ :: _, [] => false
  | a :: as, b :: bs => a = b && listStartsWith as bs

/-- Substring containment, the Python in operator on strings. -/
def strContainsSub (hay needle : String) : Bool :=
  (List.range (hay.toList.length + 1)).any
    (fun i => listStartsWith needle.toList (hay.toList.drop i))

/-- version_was_bumped from update-catalog.py: False on a first commit;
otherwise False when the manifest-restricted diff command fails or prints
nothing, and the containment of the literal marker version: in the diff
output otherwise. -/
def version_was_bumped (g : Git) (templateDir : String) : Bool :=
  if g.hasParent then
    match g.pathDiff (templateDir ++ "/manifest.yaml") with
    | .error _ => false
    | .ok out => if out = "" then false else strContainsSub out "version:"
  else false

/-- Lexicographic code-point comparison of character lists, the order
Python sorted() uses on strings. -/
def charListLt : List Char → List Char → Bool
  | [], [] => false
  | [], _ :: _ => true
  | _ :: _, [] => false
  | a :: as, b :: bs =>
    if a.toNat < b.toNat then true
    else if b.toNat < a.toNat then false
    else charListLt as bs

/-- Insertion into a string list, ordered by code-point comparison. -/
def insertSorted (x : String) : List String → List String
  | [] => [x]
  | y :: ys => if charListLt x.toList y.toList then x :: y :: ys else y :: insertSorted x ys

/-- Python sorted() on a list of strings. Only the fact that the result is
a permutation of the input matters below. -/
def sortStrings (l : List String) : List String := l.foldr insertSorted []

/-- The directories the bump loop of main in update-catalog.py passes to
bump_manifest_version: the sorted changed template directories whose
version the author did not already bump. -/
def mainToBump (g : Git) (templateDirs : List String) : List String :=
  (sortStrings (get_changed_template_dirs g templateDirs)).filter
    (fun d => !version_was_bumped g d)

/-- One file write performed by update-catalog.py: either a manifest of a
named template directory, or the catalog index. -/
inductive WriteEvent where
  | manifest (dir : String) (doc : YVal)
  | index (content : String)

/-- Whether a write event is a manifest write of the given directory. -/
def isManifestWriteFor (d : String) : WriteEvent → Bool
  | .manifest d2 _ => d2 == d
  | .index _ => false

/-- How many manifest writes of the given directory a write list holds. -/
def manifestWriteCount (ws : List WriteEvent) (d : String) : Nat :=
  (ws.filter (isManifestWriteFor d)).length

/-- The bump loop of main in update-catalog.py: for each directory in turn,
load its manifest (a parse failure propagates uncaught and aborts the run),
rewrite it via bump_manifest_version, record the write, and make the
written document the one later reads of that manifest see. Returns the
writes performed so far even when aborting. -/
def runBumps (ts : Templates) (ws : List WriteEvent) :
    List String → List WriteEvent × Except PyErr Templates
  | [] => (ws, .ok ts)
  | d :: ds =>
    match alistGet ts d with
    | none => (ws, .error .fileNotFound)
    | some (.error e) => (ws, .error e)
    | some (.ok data) =>
      match bump_manifest_version data with
      | .error e => (ws, .error e)
      | .ok (written, _, _) =>
        runBumps (alistSet ts d (.ok written)) (ws ++ [.manifest d written]) ds

/-- main from update-catalog.py: bump the changed-and-not-already-bumped
templates in sorted order, then regenerate info.yaml, writing it only when
the serialization differs from the existing content. Returns the write
events performed and either the exit code 0 or the uncaught exception that
aborted the run. -/
def main_update (g : Git) (ts : Templates) (existingInfo : String) :
    List WriteEvent × Except PyErr Nat :=
  match runBumps ts [] (mainToBump g (ts.map Prod.fst)) with
  | (ws, .error e) => (ws, .error e)
  | (ws, .ok ts2) =>
    match rebuild_index ts2 existingInfo with
    | .error e => (ws, .error e)
    | .ok (content, didWrite) =>
      (if didWrite then ws ++ [.index content] else ws, .ok 0)

/-- Whether a path carries a YAML-family extension (endswith on the pair
of suffixes .yaml and .yml). -/
def isYamlPath (f : String) : Bool :=
  listStartsWith ".yaml".toList.reverse f.toList.reverse ||
  listStartsWith ".yml".toList.reverse f.toList.reverse

/-- One changed file as the Validator sees it: its repository-relative
path, and its state on disk — none when the file no longer exists, some
parse result (yaml.safe_load) when it does. -/
structure VFile where
  path : String
  disk : Option (Except PyErr YVal)

/-- Whether a changed file is still present on disk and fails to parse. -/
def vFails (f : VFile) : Bool :=
  match f.disk with
  | some (.error _) => true
  | _ => false

/-- The error-collection loop of validate_yaml_files from
validate-catalog.py: walks the argument files in order, skipping missing
files and successful parses, and records every parse failure. -/
def collectErrors : List VFile → List String
  | [] => []
  | f :: fs =>
    match f.disk with
    | some (.error _) => f.path :: collectErrors fs
    | _ => collectErrors fs

/-- validate_yaml_files from validate-catalog.py: restrict the changed
files to YAML-family extensions, collect every parse failure without
stopping, and succeed exactly when none occurred. Returns the error lines
and the boolean result. -/
def validate_yaml_files (changedFiles : List VFile) : List String × Bool :=
  let errors := collectErrors (changedFiles.filter (fun f => isYamlPath f.path))
  (errors, errors.isEmpty)

/-- get_changed_template_dirs from validate-catalog.py: the set of first
path segments of changed files with at least two path components whose
head segment is a known template directory. -/
def v_get_changed_template_dirs (changedFiles : List String) (templateDirs : List String) :
    List String :=
  ((changedFiles.filter (fun f =>
      decide ((f.toList.filter (fun c => c == '/')).length + 1 ≥ 2) &&
      templateDirs.contains (headSeg f))).map headSeg).dedup

/-- main from validate-catalog.py: exit code 1 with the collected error
lines when any changed YAML file fails to parse, exit code 0 reporting the
sorted changed template directories otherwise. The routine performs no
write; its embedding is a pure function of the observed repository state. -/
def validator_main (templateDirs : List String) (changedFiles : List VFile) :
    Nat × List String × List String :=
  let changedTemplates :=
    v_get_changed_template_dirs (changedFiles.map VFile.path) templateDirs
  match validate_yaml_files changedFiles with
  | (errors, false) => (1, [], errors)
  | (_, true) => (0, sortStrings changedTemplates, [])

/-! ### Association-list lemmas -/

theorem alistGet_alistSet_self {α : Type} (l : List (String × α)) (k : String) (v : α) :
    alistGet (alistSet l k v) k = some v := by
  induction l with
  | nil => simp [alistSet, alistGet]
  | cons p rest ih =>
    obtain ⟨k2, v2⟩ := p
    by_cases h : k2 = k
    · simp [alistSet, alistGet, h]
    · simp [alistSet, alistGet, h, ih]

theorem alistGet_alistSet_ne {α : Type} (l : List (String × α)) (k k2 : String) (v : α)
    (hne : k2 ≠ k) : alistGet (alistSet l k v) k2 = alistGet l k2 := by
  induction l with
  | nil => simp [alistSet, alistGet, Ne.symm hne]
  | cons p rest ih =>
    obtain ⟨ka, va⟩ := p
    by_cases h : ka = k
    · subst h
      simp [alistSet, alistGet, Ne.symm hne]
    · simp [alistSet, alistGet, h, ih]

theorem keys_alistSet_filter {α : Type} (l : List (String × α)) (k : String) (v : α) :
    ((alistSet l k v).map Prod.fst).filter (fun x => !(x == k)) =
      (l.map Prod.fst).filter (fun x => !(x == k)) := by
  induction l with
  | nil => simp [alistSet]
  | cons p rest ih =>
    obtain ⟨ka, va⟩ := p
    by_cases h : ka = k
    · subst h
      simp [alistSet]
    · simp [alistSet, h, ih]

theorem alistGet_mem {α : Type} (l : List (String × α)) (k : String) (v : α)
    (h : alistGet l k = some v) : (k, v) ∈ l := by
  induction l with
  | nil => simp [alistGet] at h
  | cons p rest ih =>
    obtain ⟨ka, va⟩ := p
    by_cases hk : ka = k
    · subst hk
      simp [alistGet] at h
      subst h
      exact List.mem_cons_self _ _
    · simp [alistGet, hk] at h
      exact List.mem_cons_of_mem _ (ih h)

/-! ### Error-propagating map -/

theorem mapExcept_ok_mem {α β : Type} (f : α → Except PyErr β) (l : List α) (ys : List β)
    (h : mapExcept f l = .ok ys) : ∀ x ∈ l, ∃ y, f x = .ok y := by
  induction l generalizing ys with
  | nil => intro x hx; cases hx
  | cons a as ih =>
    intro x hx
    cases hf : f a with
    | error e => simp [mapExcept, hf] at h
    | ok y =>
      cases hm : mapExcept f as with
      | error e => simp [mapExcept, hf, hm] at h
      | ok ys2 =>
        rcases List.mem_cons.mp hx with rfl | hx2
        · exact ⟨y, hf⟩
        · exact ih ys2 hm x hx2

/-! ### Sorting is a permutation -/

theorem perm_insertSorted (x : String) (l : List String) :
    List.Perm (insertSorted x l) (x :: l) := by
  induction l with
  | nil => exact List.Perm.refl _
  | cons y ys ih =>
    by_cases hc : charListLt x.toList y.toList
    · rw [insertSorted, if_pos hc]
    · rw [insertSorted, if_neg hc]
      exact (ih.cons y).trans (List.Perm.swap x y ys)

theorem perm_sortStrings (l : List String) : List.Perm (sortStrings l) l := by
  induction l with
  | nil => exact List.Perm.refl _
  | cons x xs ih =>
    show List.Perm (insertSorted x (sortStrings xs)) (x :: xs)
    exact (perm_insertSorted x (sortStrings xs)).trans (ih.cons x)

/-! ### Write-count bookkeeping -/

theorem manifestWriteCount_append (ws1 ws2 : List WriteEvent) (d : String) :
    manifestWriteCount (ws1 ++ ws2) d =
      manifestWriteCount ws1 d + manifestWriteCount ws2 d := by
  simp [manifestWriteCount, List.filter_append]

theorem manifestWriteCount_single (d d2 : String) (doc : YVal) :
    manifestWriteCount [WriteEvent.manifest d2 doc] d = if d2 = d then 1 else 0 := by
  by_cases h : d2 = d <;> simp [manifestWriteCount, isManifestWriteFor, h]

/-! ### Validator bookkeeping -/

theorem vFails_iff (f : VFile) :
    vFails f = true ↔ ∃ e, f.disk = some (Except.error e) := by
  cases hd : f.disk with
  | none => simp [vFails, hd]
  | some r => cases r <;> simp [vFails, hd]

theorem collectErrors_eq (fs : List VFile) :
    collectErrors fs = (fs.filter vFails).map VFile.path := by
  induction fs with
  | nil => rfl
  | cons f fs ih =>
    cases hd : f.disk with
    | none => simp [collectErrors, vFails, hd, ih]
    | some r => cases r <;> simp [collectErrors, vFails, hd, ih]

/-! ### runBumps lemmas -/

theorem runBumps_no_index (ds : List String) (c : String) :
    ∀ (ts : Templates) (ws : List WriteEvent),
      WriteEvent.index c ∈ (runBumps ts ws ds).1 → WriteEvent.index c ∈ ws := by
  induction ds with
  | nil => intro ts ws h; simpa [runBumps] using h
  | cons d0 ds ih =>
    intro ts ws h
    rw [runBumps] at h
    rcases hA : alistGet ts d0 with _ | r
    · rw [hA] at h; exact h
    · rcases r with e | data
      · rw [hA] at h; exact h
      · rcases hB : bump_manifest_version data with e | ⟨w, o, n⟩
        · simp only [hA, hB] at h
          exact h
        · simp only [hA, hB] at h
          rcases List.mem_append.mp (ih _ _ h) with h1 | h2
          · exact h1
          · simp at h2

theorem runBumps_error_entry (ds : List String) (d : String) (e : PyErr)
    (ws2 : List WriteEvent) (ts2 : Templates) :
    ∀ (ts : Templates) (ws : List WriteEvent),
      alistGet ts d = some (.error e) →
      runBumps ts ws ds = (ws2, .ok ts2) →
      alistGet ts2 d = some (.error e) := by
  induction ds with
  | nil =>
    intro ts ws hget h
    rw [runBumps] at h
    have h2 : Except.ok (ε := PyErr) ts = Except.ok ts2 := congrArg Prod.snd h
    injection h2 with h3
    rw [← h3]
    exact hget
  | cons d0 ds ih =>
    intro ts ws hget h
    rw [runBumps] at h
    rcases hA : alistGet ts d0 with _ | r
    · rw [hA] at h; exact absurd (congrArg Prod.snd h) (by simp)
    · rcases r with e0 | data
      · rw [hA] at h; exact absurd (congrArg Prod.snd h) (by simp)
      · rcases hB : bump_manifest_version data with e0 | ⟨w, o, n⟩
        · simp only [hA, hB] at h
          exact absurd (congrArg Prod.snd h) (by simp)
        · simp only [hA, hB] at h
          have hne : d ≠ d0 := by
            intro hdd
            rw [hdd, hA] at hget
            simp at hget
          exact ih (alistSet ts d0 (.ok w)) (ws ++ [.manifest d0 w])
            (by rw [alistGet_alistSet_ne _ _ _ _ hne]; exact hget) h

theorem runBumps_writes (ds : List String) :
    ds.Nodup → ∀ (ts : Templates) (ws : List WriteEvent),
      (∀ d ∈ ds, ∃ doc w o n, alistGet ts d = some (.ok doc) ∧
        bump_manifest_version doc = .ok (w, o, n)) →
      ∃ ws2 ts2, runBumps ts ws ds = (ws2, .ok ts2) ∧
        ∀ d, manifestWriteCount ws2 d =
          manifestWriteCount ws d + (if d ∈ ds then 1 else 0) := by
  induction ds with
  | nil =>
    intro _ ts ws _
    exact ⟨ws, ts, rfl, by intro d; simp⟩
  | cons d0 ds ih =>
    intro hnd ts ws hok
    obtain ⟨doc, w, o, n, hget, hbump⟩ := hok d0 (List.mem_cons_self _ _)
    have hnotin : d0 ∉ ds := (List.nodup_cons.mp hnd).1
    have hnd2 : ds.Nodup := (List.nodup_cons.mp hnd).2
    have hok2 : ∀ d ∈ ds, ∃ doc2 w2 o2 n2,
        alistGet (alistSet ts d0 (.ok w)) d = some (.ok doc2) ∧
        bump_manifest_version doc2 = .ok (w2, o2, n2) := by
      intro d hd
      obtain ⟨doc2, w2, o2, n2, hg2, hb2⟩ := hok d (List.mem_cons_of_mem _ hd)
      have hne : d ≠ d0 := fun hh => hnotin (hh ▸ hd)
      exact ⟨doc2, w2, o2, n2,
        by rw [alistGet_alistSet_ne _ _ _ _ hne]; exact hg2, hb2⟩
    obtain ⟨ws2, ts2, heq, hcount⟩ :=
      ih hnd2 (alistSet ts d0 (.ok w)) (ws ++ [.manifest d0 w]) hok2
    refine ⟨ws2, ts2, ?_, ?_⟩
    · rw [runBumps]
      simp only [hget, hbump]
      exact heq
    · intro d
      rw [hcount d, manifestWriteCount_append, manifestWriteCount_single]
      by_cases hdd : d = d0
      · subst hdd
        simp [hnotin]
      · have hdd2 : ¬ d0 = d := fun hh => hdd hh.symm
        simp [List.mem_cons, hdd, hdd2]

/-! ### Claim theorems -/

/-- C1, counterexample: the Version Bump Engine contract as claimed — bump
strict M.N.P inputs, return every other input unchanged — is false of
bump_patch_version: the input " 1.2.3" (leading space, hence not in strict
form) is not returned unchanged but stripped and bumped to "1.2.4". -/
theorem bump_patch_version_claim_counterexample :
    ¬ ∀ s : String, bump_patch_version s = (specBumpResult s).getD s := by
  intro hall
  exact absurd (hall " 1.2.3") (by decide)

/-- C1, amended: bump_patch_version first strips surrounding ASCII
whitespace; an input whose stripped form is strict M.N.P is rebuilt as
"M.N.(P+1)" from the decimal component values, and every other input is
returned unchanged. -/
theorem bump_patch_version_spec (s : String) :
    bump_patch_version s = (specBumpResult (pyStrip s)).getD s := by
  unfold bump_patch_version specBumpResult
  rcases h : dotComponents (pyStrip s) with _ | ⟨a, _ | ⟨b, _ | ⟨c, _ | ⟨d, l⟩⟩⟩⟩ <;>
    simp only [h]
  · rfl
  · rfl
  · rfl
  · split <;> rename_i hc <;> simp [hc]
  · rfl

/-- C4: the catalog rebuild is idempotent — whatever index content a first
run leaves on disk, a second run with unchanged templates computes the same
serialization and performs no write. -/
theorem rebuild_index_idempotent (ts : Templates) (existing c : String) (b : Bool)
    (h : rebuild_index ts existing = .ok (c, b)) :
    rebuild_index ts c = .ok (c, false) := by
  unfold rebuild_index at h ⊢
  rcases hbi : build_info_yaml ts with e | info
  · rw [hbi] at h
    exact absurd h (by simp)
  · simp only [hbi] at h ⊢
    split at h <;> rename_i hc <;>
      simp only [Except.ok.injEq, Prod.mk.injEq] at h <;> obtain ⟨h1, h2⟩ := h
    · subst h1
      simp [hc]
    · subst h1
      simp

/-- C4, witness: a concrete one-template repository on which the first
rebuild writes and the second leaves the index untouched. -/
theorem rebuild_index_idempotent_witness :
    ∃ c b, rebuild_index [("t", Except.ok (YVal.map [("version", YVal.str "1.0.0")]))] ""
        = .ok (c, b) ∧
      rebuild_index [("t", Except.ok (YVal.map [("version", YVal.str "1.0.0")]))] c
        = .ok (c, false) := by
  refine ⟨_, _, rfl, ?_⟩
  exact rebuild_index_idempotent _ "" _ _ rfl

/-- C6: with a parent commit, version_was_bumped holds exactly when the
manifest-restricted diff succeeds, is nonempty and contains the literal
marker version:; an empty diff means no skip, and on a version in strict
M.N.P form bump_patch_version increments the patch component by exactly
one. -/
theorem version_was_bumped_spec (g : Git) (d : String) (hp : g.hasParent = true) :
    (version_was_bumped g d = true ↔
      ∃ out, g.pathDiff (d ++ "/manifest.yaml") = .ok out ∧ out ≠ "" ∧
        strContainsSub out "version:" = true) ∧
    (g.pathDiff (d ++ "/manifest.yaml") = .ok "" → version_was_bumped g d = false) ∧
    (∀ v M N P, semverParse (pyStrip v) = some (M, N, P) →
      bump_patch_version v = toString M ++ "." ++ toString N ++ "." ++ toString (P + 1)) := by
  refine ⟨?_, ?_, ?_⟩
  · unfold version_was_bumped
    rw [hp]
    rcases hd : g.pathDiff (d ++ "/manifest.yaml") with u | out
    · simp [hd]
    · by_cases ho : out = ""
      · subst ho
        simp [hd]
      · simp [hd, ho]
  · intro hdiff
    unfold version_was_bumped
    simp [hp, hdiff]
  · intro v M N P hsv
    unfold semverParse at hsv
    unfold bump_patch_version
    rcases h : dotComponents (pyStrip v) with _ | ⟨a, _ | ⟨b, _ | ⟨c, _ | ⟨e, l⟩⟩⟩⟩ <;>
      simp only [h] at hsv ⊢
    · exact absurd hsv (by simp)
    · exact absurd hsv (by simp)
    · exact absurd hsv (by simp)
    · split at hsv <;> rename_i hc
      · simp only [Option.some.injEq, Prod.mk.injEq] at hsv
        obtain ⟨h1, h2, h3⟩ := hsv
        rw [if_pos hc, h1, h2, h3]
      · exact absurd hsv (by simp)
    · exact absurd hsv (by simp)

/-- C6, witness: an empty manifest diff leads to no skip, and a concrete
strict version is patch-incremented by exactly one. -/
theorem version_was_bumped_spec_witness :
    version_was_bumped ⟨true, [], fun _ => Except.ok ""⟩ "tB" = false ∧
    bump_patch_version "7.0.9" = "7.0.10" := by
  have h := version_was_bumped_spec ⟨true, [], fun _ => Except.ok ""⟩ "tB" rfl
  exact ⟨h.2.1 rfl, (h.2.2 "7.0.9" 7 0 9 rfl).trans (by decide)⟩

/-- C9: a syntactically valid manifest whose parse is null or a non-mapping
makes both the bump path and the catalog build raise AttributeError — a
failure mode distinct from the documented ParseError. -/
theorem nonmapping_manifest_attribute_error :
    bump_manifest_version YVal.null = .error .attributeError ∧
    bump_manifest_version (YVal.list [YVal.int 1]) = .error .attributeError ∧
    bump_manifest_version (YVal.str "hello") = .error .attributeError ∧
    build_info_yaml [("t", Except.ok YVal.null)] = .error .attributeError ∧
    build_info_yaml [("t", Except.ok (YVal.list [YVal.int 1]))] = .error .attributeError ∧
    PyErr.attributeError ≠ PyErr.parseError :=
  ⟨rfl, rfl, rfl, rfl, rfl, by decide⟩

/-- C10: a version key present with a null value is not defaulted to
"0.0.0": the null is stringified to "None", passed through the engine
unchanged, and written back literally, while a genuinely absent key yields
"0.0.1". -/
theorem null_version_not_defaulted :
    bump_manifest_version (.map [("name", .str "t"), ("version", .null)]) =
      .ok (.map [("name", .str "t"), ("version", .str "None")], .null, "None") ∧
    bump_manifest_version (.map [("name", .str "t")]) =
      .ok (.map [("name", .str "t"), ("version", .str "0.0.1")], .str "0.0.0", "0.0.1") ∧
    ("None" : String) ≠ "0.0.1" :=
  ⟨rfl, rfl, by decide⟩

/-- C2, counterexample: a manifest read in nested form is written back
nested — the written document keeps its fields under the manifest key and
carries neither version nor name at its top level, refuting the claim that
every written manifest is in flat top-level form. -/
theorem nested_manifest_written_nested :
    bump_manifest_version
        (.map [("manifest", .map [("name", .str "t"), ("version", .str "1.2.3")])]) =
      .ok (.map [("manifest", .map [("name", .str "t"), ("version", .str "1.2.4")])],
           .str "1.2.3", "1.2.4") ∧
    topGet (.map [("manifest", .map [("name", .str "t"), ("version", .str "1.2.4")])])
      "version" = none ∧
    topGet (.map [("manifest", .map [("name", .str "t"), ("version", .str "1.2.4")])])
      "name" = none :=
  ⟨rfl, rfl, rfl⟩

/-- C2, amended: every write of bump_manifest_version preserves the shape
in which the manifest was read — a nested document is written back nested
(only the nested version field updated; the top level, including any
top-level version field, is otherwise untouched), and the flat top-level
form is written exactly when the manifest was read flat. -/
theorem bump_manifest_preserves_shape (kvs : List (String × YVal)) (w o : YVal) (n : String)
    (h : bump_manifest_version (.map kvs) = .ok (w, o, n)) :
    ∃ wkvs, w = .map wkvs ∧
      (∀ inner, alistGet kvs "manifest" = some (.map inner) →
        alistGet wkvs "manifest" = some (.map (alistSet inner "version" (.str n))) ∧
        alistGet wkvs "version" = alistGet kvs "version") ∧
      (alistGet kvs "manifest" = none →
        alistGet wkvs "manifest" = none ∧ alistGet wkvs "version" = some (.str n)) := by
  unfold bump_manifest_version at h
  rcases hm : alistGet kvs "manifest" with _ | mv
  · simp only [hm, Except.ok.injEq, Prod.mk.injEq] at h
    obtain ⟨hw, ho, hn⟩ := h
    rw [hn] at hw
    subst hw
    refine ⟨alistSet kvs "version" (.str n), rfl, ?_, ?_⟩
    · intro inner hinner
      exact absurd hinner (by simp)
    · intro _
      constructor
      · rw [alistGet_alistSet_ne _ _ _ _ (by decide)]
        exact hm
      · exact alistGet_alistSet_self _ _ _
  · rcases mv with _ | b | i | s2 | xs | inner
    · simp only [hm] at h; exact absurd h (by simp)
    · simp only [hm] at h; exact absurd h (by simp)
    · simp only [hm] at h; exact absurd h (by simp)
    · simp only [hm] at h; exact absurd h (by simp)
    · simp only [hm] at h; exact absurd h (by simp)
    · simp only [hm, Except.ok.injEq, Prod.mk.injEq] at h
      obtain ⟨hw, ho, hn⟩ := h
      rw [hn] at hw
      subst hw
      refine ⟨alistSet kvs "manifest" (.map (alistSet inner "version" (.str n))), rfl, ?_, ?_⟩
      · intro inner2 hinner2
        have hii : inner = inner2 := by simpa using hinner2
        subst hii
        exact ⟨alistGet_alistSet_self _ _ _, alistGet_alistSet_ne _ _ _ _ (by decide)⟩
      · intro hnone
        exact absurd hnone (by simp)

/-- C2, witness: the shape-preservation theorem applied to a concrete
nested manifest. -/
theorem bump_manifest_preserves_shape_witness :
    ∃ wkvs,
      (YVal.map [("manifest", YVal.map [("name", YVal.str "t"), ("version", YVal.str "1.2.4")])])
        = .map wkvs ∧
      (∀ inner,
        alistGet [("manifest", YVal.map [("name", YVal.str "t"), ("version", YVal.str "1.2.3")])]
          "manifest" = some (.map inner) →
        alistGet wkvs "manifest" = some (.map (alistSet inner "version" (.str "1.2.4"))) ∧
        alistGet wkvs "version" =
          alistGet [("manifest", YVal.map [("name", YVal.str "t"), ("version", YVal.str "1.2.3")])]
            "version") ∧
      (alistGet [("manifest", YVal.map [("name", YVal.str "t"), ("version", YVal.str "1.2.3")])]
          "manifest" = none →
        alistGet wkvs "manifest" = none ∧ alistGet wkvs "version" = some (.str "1.2.4")) :=
  bump_manifest_preserves_shape
    [("manifest", YVal.map [("name", YVal.str "t"), ("version", YVal.str "1.2.3")])]
    _ _ _ rfl

/-- C3: round-trip of a bump — the manifest view (nested mapping when
present, else the top level) of the written document has the same value as
the view of the read document at every key other than version, the key
sequence apart from version is unchanged, and the written version is
exactly bump_patch_version applied to the stringified version value read
before the write (defaulting to "0.0.0" when absent). Re-reading the
written file yields the written document, yaml.dump and yaml.safe_load
being mutually inverse on these documents. -/
theorem bump_manifest_roundtrip (kvs : List (String × YVal)) (w o : YVal) (n : String)
    (h : bump_manifest_version (.map kvs) = .ok (w, o, n)) :
    ∃ vkvs wkvs,
      pyGetD (.map kvs) "manifest" (.map kvs) = .ok (.map vkvs) ∧
      pyGetD w "manifest" w = .ok (.map wkvs) ∧
      (∀ k, k ≠ "version" → alistGet wkvs k = alistGet vkvs k) ∧
      ((wkvs.map Prod.fst).filter (fun x => !(x == "version")) =
        (vkvs.map Prod.fst).filter (fun x => !(x == "version"))) ∧
      o = (alistGet vkvs "version").getD (.str "0.0.0") ∧
      n = bump_patch_version (pyStr o) ∧
      alistGet wkvs "version" = some (.str n) := by
  unfold bump_manifest_version at h
  rcases hm : alistGet kvs "manifest" with _ | mv
  · simp only [hm, Except.ok.injEq, Prod.mk.injEq] at h
    obtain ⟨hw, ho, hn⟩ := h
    rw [hn] at hw
    subst hw
    refine ⟨kvs, alistSet kvs "version" (.str n), ?_, ?_, ?_, ?_, ho.symm, ?_, ?_⟩
    · simp [pyGetD, hm]
    · simp only [pyGetD]
      rw [alistGet_alistSet_ne _ _ _ _ (by decide), hm]
      rfl
    · intro k hk
      exact alistGet_alistSet_ne _ _ _ _ hk
    · exact keys_alistSet_filter _ _ _
    · rw [← ho]
      exact hn.symm
    · exact alistGet_alistSet_self _ _ _
  · rcases mv with _ | b | i | s2 | xs | inner
    · simp only [hm] at h; exact absurd h (by simp)
    · simp only [hm] at h; exact absurd h (by simp)
    · simp only [hm] at h; exact absurd h (by simp)
    · simp only [hm] at h; exact absurd h (by simp)
    · simp only [hm] at h; exact absurd h (by simp)
    · simp only [hm, Except.ok.injEq, Prod.mk.injEq] at h
      obtain ⟨hw, ho, hn⟩ := h
      rw [hn] at hw
      subst hw
      refine ⟨inner, alistSet inner "version" (.str n), ?_, ?_, ?_, ?_, ho.symm, ?_, ?_⟩
      · simp [pyGetD, hm]
      · simp only [pyGetD]
        rw [alistGet_alistSet_self]
        rfl
      · intro k hk
        exact alistGet_alistSet_ne _ _ _ _ hk
      · exact keys_alistSet_filter _ _ _
      · rw [← ho]
        exact hn.symm
      · exact alistGet_alistSet_self _ _ _

/-- C3, witness: the round-trip theorem applied to a concrete flat
manifest. -/
theorem bump_manifest_roundtrip_witness :
    ∃ vkvs wkvs,
      pyGetD (.map [("name", YVal.str "x"), ("version", YVal.str "1.2.3")]) "manifest"
          (.map [("name", YVal.str "x"), ("version", YVal.str "1.2.3")]) = .ok (.map vkvs) ∧
      pyGetD (YVal.map [("name", YVal.str "x"), ("version", YVal.str "1.2.4")]) "manifest"
          (YVal.map [("name", YVal.str "x"), ("version", YVal.str "1.2.4")]) = .ok (.map wkvs) ∧
      (∀ k, k ≠ "version" → alistGet wkvs k = alistGet vkvs k) ∧
      ((wkvs.map Prod.fst).filter (fun x => !(x == "version")) =
        (vkvs.map Prod.fst).filter (fun x => !(x == "version"))) ∧
      (YVal.str "1.2.3") = (alistGet vkvs "version").getD (.str "0.0.0") ∧
      "1.2.4" = bump_patch_version (pyStr (.str "1.2.3")) ∧
      alistGet wkvs "version" = some (.str "1.2.4") :=
  bump_manifest_roundtrip [("name", YVal.str "x"), ("version", YVal.str "1.2.3")] _ _ _ rfl

/-- Composing two filters is filtering by the conjunction. -/
theorem filter_filter_and {α : Type} (p q : α → Bool) (l : List α) :
    (l.filter p).filter q = l.filter (fun x => p x && q x) := by
  induction l with
  | nil => rfl
  | cons x xs ih =>
    by_cases hp : p x <;> by_cases hq : q x <;> simp [hp, hq, ih]

/-- C5: on a first commit (no parent revision) every template directory is
reported changed, the author-already-bumped check is false everywhere, and
the bump loop of main writes each template manifest exactly once. -/
theorem first_commit_bumps_all (g : Git) (ts : Templates)
    (hg : g.hasParent = false) (hnd : (ts.map Prod.fst).Nodup)
    (hok : ∀ d ∈ ts.map Prod.fst, ∃ doc w o n,
      alistGet ts d = some (.ok doc) ∧ bump_manifest_version doc = .ok (w, o, n)) :
    get_changed_template_dirs g (ts.map Prod.fst) = ts.map Prod.fst ∧
    (∀ d, version_was_bumped g d = false) ∧
    ∃ ws2 ts2, runBumps ts [] (mainToBump g (ts.map Prod.fst)) = (ws2, .ok ts2) ∧
      ∀ d, manifestWriteCount ws2 d = if d ∈ ts.map Prod.fst then 1 else 0 := by
  have hvb : ∀ d, version_was_bumped g d = false := by
    intro d
    simp [version_was_bumped, hg]
  have hchanged : get_changed_template_dirs g (ts.map Prod.fst) = ts.map Prod.fst := by
    unfold get_changed_template_dirs
    rw [hg]
    simp [List.dedup_eq_self.mpr hnd]
  have htb : mainToBump g (ts.map Prod.fst) = sortStrings (ts.map Prod.fst) := by
    unfold mainToBump
    rw [hchanged]
    apply List.filter_eq_self.mpr
    intro a _
    simp [hvb a]
  refine ⟨hchanged, hvb, ?_⟩
  have hperm := perm_sortStrings (ts.map Prod.fst)
  have hnd2 : (sortStrings (ts.map Prod.fst)).Nodup := hperm.nodup_iff.mpr hnd
  have hok2 : ∀ d ∈ sortStrings (ts.map Prod.fst), ∃ doc w o n,
      alistGet ts d = some (.ok doc) ∧ bump_manifest_version doc = .ok (w, o, n) := by
    intro d hd
    exact hok d (hperm.mem_iff.mp hd)
  obtain ⟨ws2, ts2, heq, hcount⟩ := runBumps_writes _ hnd2 ts [] hok2
  refine ⟨ws2, ts2, by rw [htb]; exact heq, ?_⟩
  intro d
  rw [hcount d]
  have h0 : manifestWriteCount [] d = 0 := rfl
  rw [h0, Nat.zero_add]
  by_cases hd : d ∈ List.map Prod.fst ts
  · rw [if_pos (hperm.mem_iff.mpr hd), if_pos hd]
  · rw [if_neg (fun hh => hd (hperm.mem_iff.mp hh)), if_neg hd]

/-- C5, witness: a two-template repository on its first commit — both
manifests are written exactly once. -/
theorem first_commit_bumps_all_witness :
    get_changed_template_dirs ⟨false, [], fun _ => Except.error ()⟩
      (([("tA", Except.ok (YVal.map [("version", YVal.str "1.0.0")])),
         ("tB", Except.ok (YVal.map [("name", YVal.str "b")]))] : Templates).map Prod.fst) =
      (([("tA", Except.ok (YVal.map [("version", YVal.str "1.0.0")])),
         ("tB", Except.ok (YVal.map [("name", YVal.str "b")]))] : Templates).map Prod.fst) ∧
    (∀ d, version_was_bumped ⟨false, [], fun _ => Except.error ()⟩ d = false) ∧
    ∃ ws2 ts2,
      runBumps [("tA", Except.ok (YVal.map [("version", YVal.str "1.0.0")])),
                ("tB", Except.ok (YVal.map [("name", YVal.str "b")]))] []
        (mainToBump ⟨false, [], fun _ => Except.error ()⟩
          (([("tA", Except.ok (YVal.map [("version", YVal.str "1.0.0")])),
             ("tB", Except.ok (YVal.map [("name", YVal.str "b")]))] : Templates).map Prod.fst)) =
        (ws2, .ok ts2) ∧
      ∀ d, manifestWriteCount ws2 d =
        if d ∈ (([("tA", Except.ok (YVal.map [("version", YVal.str "1.0.0")])),
                  ("tB", Except.ok (YVal.map [("name", YVal.str "b")]))] : Templates).map Prod.fst)
        then 1 else 0 := by
  apply first_commit_bumps_all ⟨false, [], fun _ => Except.error ()⟩
    [("tA", Except.ok (YVal.map [("version", YVal.str "1.0.0")])),
     ("tB", Except.ok (YVal.map [("name", YVal.str "b")]))] rfl (by decide)
  intro d hd
  simp only [List.map_cons, List.map_nil, List.mem_cons, List.not_mem_nil, or_false] at hd
  rcases hd with rfl | rfl
  · exact ⟨_, _, _, _, rfl, rfl⟩
  · exact ⟨_, _, _, _, rfl, rfl⟩

/-- C7: the Validator signals failure exactly when some changed
YAML-extension file still on disk fails to parse; missing files are
skipped; every failure is collected (no early stop); on success the sorted
changed template directories are reported. The embedding is a pure
function: the routine performs no write. -/
theorem validator_spec (tds : List String) (files : List VFile) :
    ((validator_main tds files).1 ≠ 0 ↔
      ∃ f ∈ files, isYamlPath f.path = true ∧ ∃ e, f.disk = some (Except.error e)) ∧
    ((validate_yaml_files files).1 =
      (files.filter (fun f => isYamlPath f.path && vFails f)).map VFile.path) ∧
    ((validator_main tds files).1 = 0 →
      (validator_main tds files).2.1 =
        sortStrings (v_get_changed_template_dirs (files.map VFile.path) tds)) := by
  have herr : (validate_yaml_files files).1 =
      (files.filter (fun f => isYamlPath f.path && vFails f)).map VFile.path := by
    unfold validate_yaml_files
    rw [collectErrors_eq, filter_filter_and]
  have hEe : (validate_yaml_files files).1 =
      collectErrors (files.filter (fun f => isYamlPath f.path)) := rfl
  have hmapE : (files.filter (fun f => isYamlPath f.path && vFails f)).map VFile.path =
      collectErrors (files.filter (fun f => isYamlPath f.path)) := herr.symm.trans hEe
  have hiff : ∀ f : VFile, (isYamlPath f.path && vFails f) = true ↔
      (isYamlPath f.path = true ∧ ∃ e, f.disk = some (Except.error e)) := by
    intro f
    rw [Bool.and_eq_true, vFails_iff]
  rcases hE : collectErrors (files.filter (fun f => isYamlPath f.path)) with _ | ⟨p0, ps⟩
  · have hvm : validator_main tds files =
        (0, sortStrings (v_get_changed_template_dirs (files.map VFile.path) tds), []) := by
      unfold validator_main validate_yaml_files
      rw [hE]
      rfl
    have hnil : files.filter (fun f => isYamlPath f.path && vFails f) = [] := by
      rw [hE] at hmapE
      exact List.map_eq_nil_iff.mp hmapE
    refine ⟨?_, herr, ?_⟩
    · rw [hvm]
      constructor
      · intro h0
        exact absurd rfl h0
      · intro hex
        exfalso
        rcases hex with ⟨f, hf, hy, e, hd⟩
        have hfmem : f ∈ files.filter (fun f => isYamlPath f.path && vFails f) := by
          rw [List.mem_filter]
          exact ⟨hf, (hiff f).mpr ⟨hy, e, hd⟩⟩
        rw [hnil] at hfmem
        cases hfmem
    · intro _
      rw [hvm]
  · have hvm : validator_main tds files = (1, [], p0 :: ps) := by
      unfold validator_main validate_yaml_files
      rw [hE]
      rfl
    have hcons : (files.filter (fun f => isYamlPath f.path && vFails f)).map VFile.path
        = p0 :: ps := by
      rw [hE] at hmapE
      exact hmapE
    refine ⟨?_, herr, ?_⟩
    · rw [hvm]
      constructor
      · intro _
        rcases hfe : files.filter (fun f => isYamlPath f.path && vFails f) with _ | ⟨f0, fs⟩
        · rw [hfe] at hcons
          cases hcons
        · have hf0 : f0 ∈ files.filter (fun f => isYamlPath f.path && vFails f) := by
            rw [hfe]
            exact List.mem_cons_self _ _
          rw [List.mem_filter] at hf0
          obtain ⟨hmem, hprop⟩ := hf0
          obtain ⟨hy, e, hd⟩ := (hiff f0).mp hprop
          exact ⟨f0, hmem, hy, e, hd⟩
      · intro _
        exact fun h1 => absurd h1 Nat.one_ne_zero
    · intro hzero
      rw [hvm] at hzero
      exact absurd hzero Nat.one_ne_zero

/-- C8: a template manifest that fails to parse aborts the whole update
run — the uncaught error reaches the top (nonzero process exit) and the
catalog index is never written, not even partially. -/
theorem malformed_manifest_aborts (g : Git) (ts : Templates) (existing : String)
    (d : String) (hbad : alistGet ts d = some (.error .parseError)) :
    (∃ e, (main_update g ts existing).2 = .error e) ∧
    (∀ c, WriteEvent.index c ∉ (main_update g ts existing).1) := by
  unfold main_update
  rcases hrb : runBumps ts [] (mainToBump g (ts.map Prod.fst)) with ⟨ws, res⟩
  have hws : ∀ c, WriteEvent.index c ∉ ws := by
    intro c hc
    have hmem : WriteEvent.index c ∈ (runBumps ts [] (mainToBump g (ts.map Prod.fst))).1 := by
      rw [hrb]
      exact hc
    simpa using runBumps_no_index _ _ _ _ hmem
  cases res with
  | error e =>
    exact ⟨⟨e, rfl⟩, hws⟩
  | ok ts2 =>
    have hbad2 := runBumps_error_entry _ d .parseError ws ts2 ts [] hbad hrb
    have hmem2 := alistGet_mem _ _ _ hbad2
    rcases hbi : build_info_yaml ts2 with e | info
    · unfold rebuild_index
      simp only [hbi]
      exact ⟨⟨e, rfl⟩, hws⟩
    · exfalso
      unfold build_info_yaml at hbi
      rcases hme : mapExcept loadAndProject ts2 with e2 | recs
      · rw [hme] at hbi
        exact absurd hbi (by simp)
      · obtain ⟨y, hy⟩ := mapExcept_ok_mem _ _ _ hme (d, .error .parseError) hmem2
        exact absurd hy (by simp [loadAndProject])

/-- C8, witness: the abort theorem applied to a one-template repository
with a malformed manifest. -/
theorem malformed_manifest_aborts_witness :
    (∃ e, (main_update ⟨false, [], fun _ => Except.error ()⟩
      [("tA", Except.error PyErr.parseError)] "").2 = .error e) ∧
    (∀ c, WriteEvent.index c ∉ (main_update ⟨false, [], fun _ => Except.error ()⟩
      [("tA", Except.error PyErr.parseError)] "").1) :=
  malformed_manifest_aborts _ _ _ "tA" rfl

/-- C7, witness: the validator theorem applied to a concrete change set
holding one bad YAML file among good ones. -/
theorem validator_spec_witness :
    (validator_main ["tA", "tB"]
        [⟨"tA/a.yaml", some (Except.ok YVal.null)⟩,
         ⟨"tB/bad.yaml", some (Except.error PyErr.parseError)⟩,
         ⟨"tB/gone.yaml", none⟩]).1 ≠ 0 := by
  have h := validator_spec ["tA", "tB"]
    [⟨"tA/a.yaml", some (Except.ok YVal.null)⟩,
     ⟨"tB/bad.yaml", some (Except.error PyErr.parseError)⟩,
     ⟨"tB/gone.yaml", none⟩]
  refine h.1.mpr ⟨⟨"tB/bad.yaml", some (Except.error PyErr.parseError)⟩, ?_, rfl, ⟨_, rfl⟩⟩
  exact List.mem_cons_of_mem _ (List.mem_cons_self _ _)
